import Mathlib

/-!
Shallow embedding of the auction module of `substrate-kitties`
(`runtime/src/auction/mod.rs`).

Modelling conventions:
* `T::AccountId`, `T::ItemId`, `T::AuctionId`, `BalanceOf<T>` and `T::Moment`
  are all modelled as `Nat`.
* `T::AuctionId::max_value()` is a parameter `max_value : Nat` of the
  functions that consult it.
* The module storage (`decl_storage!`) becomes the record `State`; maps become
  functions into `Option`, and `deposit_event` appends to an event log.
* A dispatchable `fn f(origin, ...) -> Result` becomes
  `f : State -> Option Nat -> ... -> Except String State`; `origin` is
  `some who` for a signed origin.  An `Err` result in the runtime leaves
  storage untouched, which the `Except.error` branch models by carrying no
  state.
* Error strings are exactly the strings of the source.
-/

namespace AuctionModule

inductive AuctionStatus where
  | PendingStart
  | Paused
  | Active
  | Stopped
deriving DecidableEq, Repr

structure Auction where
  id : Nat
  item : Nat
  owner : Nat
  start_at : Option Nat
  stop_at : Option Nat
  wait_period : Option Nat
  begin_price : Nat
  upper_bound_price : Option Nat
  minimum_step : Nat
  latest_participate : Option (Nat × Nat)
  status : AuctionStatus
deriving DecidableEq, Repr

inductive Event where
  | BidderUpdated (auction_id : Nat) (bidder : Nat) (price : Nat) (remain : Nat)
  | AuctionUpdated (auction_id : Nat) (status_from : AuctionStatus)
      (status_to : AuctionStatus)
deriving DecidableEq, Repr

/-- The storage of the module (`decl_storage!`), plus the event log. -/
structure State where
  next_auction_id : Nat
  auction_items : Nat → Option Nat
  auctions : Nat → Option Auction
  auction_bids : Nat → Nat → Option Nat
  auction_participants : Nat → Option (List Nat)
  pending_auctions : List Nat
  active_auctions : List Nat
  events : List Event

/-- Genesis storage: all maps empty, `NextAuctionId = 0`. -/
def initState : State where
  next_auction_id := 0
  auction_items := fun _ => none
  auctions := fun _ => none
  auction_bids := fun _ _ => none
  auction_participants := fun _ => none
  pending_auctions := []
  active_auctions := []
  events := []

/-- `system::ensure_signed`. -/
def ensure_signed : Option Nat → Except String Nat
  | some who => .ok who
  | none => .error "RequireSignedOrigin"

/-- `deposit_event`. -/
def deposit_event (s : State) (e : Event) : State :=
  { s with events := s.events ++ [e] }

/-- `fn get_next_auction_id()`: errors when `NextAuctionId` has reached
`T::AuctionId::max_value()`. -/
def get_next_auction_id (max_value : Nat) (s : State) : Except String Nat :=
  let auction_id := s.next_auction_id
  if auction_id = max_value then .error "Auction count overflow"
  else .ok auction_id

/-- `fn insert_auction`: stores the record and bumps `NextAuctionId`. -/
def insert_auction (_owner : Nat) (s : State) (auction_id : Nat)
    (auction : Auction) : State :=
  { s with
    auctions := fun i => if i = auction_id then some auction else s.auctions i
    next_auction_id := auction_id + 1 }

/-- `fn do_create_auction`. -/
def do_create_auction (max_value : Nat) (s : State) (owner : Nat)
    (begin_price : Nat) (minimum_step : Nat) (upper_bound_price : Option Nat) :
    Except String (Nat × State) :=
  match get_next_auction_id max_value s with
  | Except.error e => Except.error e
  | Except.ok auction_id =>
    let new_auction : Auction :=
      { id := auction_id
        item := 0
        owner := owner
        begin_price := begin_price
        minimum_step := minimum_step
        status := AuctionStatus.PendingStart
        upper_bound_price := upper_bound_price
        start_at := none
        stop_at := none
        wait_period := none
        latest_participate := none }
    Except.ok (auction_id, insert_auction owner s auction_id new_auction)

/-- Dispatchable `create_auction`. -/
def create_auction (max_value : Nat) (s : State) (origin : Option Nat)
    (begin_price : Nat) (minimum_step : Nat) (upper_bound_price : Option Nat) :
    Except String State :=
  match ensure_signed origin with
  | Except.error e => Except.error e
  | Except.ok sender =>
    match do_create_auction max_value s sender begin_price minimum_step
        upper_bound_price with
    | Except.error e => Except.error e
    | Except.ok r => Except.ok r.2

/-- Dispatchable `setup_moments`.  The source mutates the unwrapped local
`auction` record and returns `Ok(())` without writing it back to the
`Auctions` map, so the returned state is the input state. -/
def setup_moments (s : State) (origin : Option Nat) (auction_id : Nat)
    (start_at : Option Nat) (stop_at : Option Nat) (wait_period : Option Nat) :
    Except String State :=
  match ensure_signed origin with
  | Except.error e => Except.error e
  | Except.ok sender =>
    match s.auctions auction_id with
    | none => Except.error "Auction does not exist"
    | some auction =>
      if auction.status ≠ AuctionStatus.PendingStart then
        Except.error "Auction is already started or over."
      else if auction.owner ≠ sender then
        Except.error "Only owner can call this fn."
      else
        let _auction :=
          { auction with
            start_at := if start_at.isSome then start_at else auction.start_at
            stop_at := if stop_at.isSome then stop_at else auction.stop_at
            wait_period :=
              if wait_period.isSome then wait_period else auction.wait_period }
        Except.ok s

/-- Dispatchable `pause_auction`.  The source sets the local record status to
`Paused` and emits the event, but never writes the record back to storage. -/
def pause_auction (s : State) (origin : Option Nat) (auction_id : Nat) :
    Except String State :=
  match ensure_signed origin with
  | Except.error e => Except.error e
  | Except.ok sender =>
    match s.auctions auction_id with
    | none => Except.error "Auction does not exist"
    | some auction =>
      if auction.status ≠ AuctionStatus.Active then
        Except.error "Auction can NOT be paused now."
      else if auction.owner ≠ sender then
        Except.error "Only owner can call this fn."
      else
        let _auction := { auction with status := AuctionStatus.Paused }
        Except.ok (deposit_event s
          (Event.AuctionUpdated auction_id AuctionStatus.Active
            AuctionStatus.Paused))

/-- Dispatchable `resume_auction`.  Like `pause_auction`, the status change is
made on the local copy only. -/
def resume_auction (s : State) (origin : Option Nat) (auction_id : Nat) :
    Except String State :=
  match ensure_signed origin with
  | Except.error e => Except.error e
  | Except.ok sender =>
    match s.auctions auction_id with
    | none => Except.error "Auction does not exist"
    | some auction =>
      if auction.status ≠ AuctionStatus.Paused then
        Except.error "Auction can NOT be resumed now."
      else if auction.owner ≠ sender then
        Except.error "Only owner can call this fn."
      else
        let _auction := { auction with status := AuctionStatus.Active }
        Except.ok (deposit_event s
          (Event.AuctionUpdated auction_id AuctionStatus.Paused
            AuctionStatus.Active))

/-- Dispatchable `start_auction`: the body is only `Ok(())`. -/
def start_auction (s : State) (_origin : Option Nat) (_auction : Nat)
    (_signature : Nat) : Except String State :=
  Except.ok s

/-- `fn do_settle_auction`: the body is only `Ok(())`. -/
def do_settle_auction (s : State) (_auction : Nat) : Except String State :=
  Except.ok s

/-- `fn do_stop_auction`: settles first unless the status is `PendingStart`,
then sets the local record status to `Stopped` (not written back) and emits
the event. -/
def do_stop_auction (s : State) (auction : Auction) : Except String State :=
  match
    (if auction.status ≠ AuctionStatus.PendingStart then
      do_settle_auction s auction.id
    else
      Except.ok s) with
  | Except.error e => Except.error e
  | Except.ok s1 =>
    let old_status := auction.status
    let _auction := { auction with status := AuctionStatus.Stopped }
    Except.ok (deposit_event s1
      (Event.AuctionUpdated auction.id old_status AuctionStatus.Stopped))

/-- `do_stop_auction` with the settlement routine abstracted, to express how a
settlement failure would propagate through the `?` operator of the source. -/
def do_stop_auction_with (settle : State → Nat → Except String State)
    (s : State) (auction : Auction) : Except String State :=
  match
    (if auction.status ≠ AuctionStatus.PendingStart then
      settle s auction.id
    else
      Except.ok s) with
  | Except.error e => Except.error e
  | Except.ok s1 =>
    let old_status := auction.status
    let _auction := { auction with status := AuctionStatus.Stopped }
    Except.ok (deposit_event s1
      (Event.AuctionUpdated auction.id old_status AuctionStatus.Stopped))

/-- Dispatchable `stop_auction`. -/
def stop_auction (s : State) (origin : Option Nat) (auction_id : Nat) :
    Except String State :=
  match ensure_signed origin with
  | Except.error e => Except.error e
  | Except.ok sender =>
    match s.auctions auction_id with
    | none => Except.error "Auction does not exist"
    | some auction =>
      if auction.status = AuctionStatus.Stopped then
        Except.error "Auction can NOT be stopped now."
      else if auction.owner ≠ sender then
        Except.error "Only owner can call this fn."
      else
        do_stop_auction s auction

/-- Dispatchable `participate_auction`: the body is only `Ok(())`. -/
def participate_auction (s : State) (_origin : Option Nat) (_auction : Nat)
    (_price : Nat) : Except String State :=
  Except.ok s

/-- One application of any dispatchable of the module that returned `Ok`. -/
inductive Step (max_value : Nat) : State → State → Prop where
  | create (s s' : State) (origin : Option Nat) (bp ms : Nat)
      (ub : Option Nat)
      (h : create_auction max_value s origin bp ms ub = Except.ok s') :
      Step max_value s s'
  | setup (s s' : State) (origin : Option Nat) (id : Nat)
      (st sp wp : Option Nat)
      (h : setup_moments s origin id st sp wp = Except.ok s') :
      Step max_value s s'
  | pause (s s' : State) (origin : Option Nat) (id : Nat)
      (h : pause_auction s origin id = Except.ok s') :
      Step max_value s s'
  | resume (s s' : State) (origin : Option Nat) (id : Nat)
      (h : resume_auction s origin id = Except.ok s') :
      Step max_value s s'
  | start (s s' : State) (origin : Option Nat) (id sig : Nat)
      (h : start_auction s origin id sig = Except.ok s') :
      Step max_value s s'
  | stop (s s' : State) (origin : Option Nat) (id : Nat)
      (h : stop_auction s origin id = Except.ok s') :
      Step max_value s s'
  | bid (s s' : State) (origin : Option Nat) (id price : Nat)
      (h : participate_auction s origin id price = Except.ok s') :
      Step max_value s s'

/-- States reachable from genesis by successful dispatchable calls. -/
inductive Reachable (max_value : Nat) : State → Prop where
  | init : Reachable max_value initState
  | step (s s' : State) (hr : Reachable max_value s)
      (hs : Step max_value s s') : Reachable max_value s'

/-- The status edges the specification allows. -/
def StatusEdge : AuctionStatus → AuctionStatus → Prop
  | AuctionStatus.PendingStart, AuctionStatus.Active => True
  | AuctionStatus.Active, AuctionStatus.Paused => True
  | AuctionStatus.Paused, AuctionStatus.Active => True
  | AuctionStatus.Active, AuctionStatus.Stopped => True
  | AuctionStatus.Paused, AuctionStatus.Stopped => True
  | AuctionStatus.PendingStart, AuctionStatus.Stopped => True
  | _, _ => False

/-! ### Helper lemmas -/

theorem deposit_event_auctions (s : State) (e : Event) :
    (deposit_event s e).auctions = s.auctions := rfl

theorem setup_moments_ok_eq (s : State) (o : Option Nat) (id : Nat)
    (st sp wp : Option Nat) (s' : State)
    (h : setup_moments s o id st sp wp = Except.ok s') : s' = s := by
  unfold setup_moments at h
  cases o with
  | none => simp [ensure_signed] at h
  | some who =>
    simp only [ensure_signed] at h
    rcases hA : s.auctions id with _ | a <;> rw [hA] at h
    · simp at h
    · by_cases h1 : a.status ≠ AuctionStatus.PendingStart
      · simp [h1] at h
      · by_cases h2 : a.owner ≠ who
        · simp [h1, h2] at h
        · simp [h1, h2] at h
          exact h.symm

theorem pause_auction_ok_eq (s : State) (o : Option Nat) (id : Nat) (s' : State)
    (h : pause_auction s o id = Except.ok s') :
    s' = deposit_event s
      (Event.AuctionUpdated id AuctionStatus.Active AuctionStatus.Paused) := by
  unfold pause_auction at h
  cases o with
  | none => simp [ensure_signed] at h
  | some who =>
    simp only [ensure_signed] at h
    rcases hA : s.auctions id with _ | a <;> rw [hA] at h
    · simp at h
    · by_cases h1 : a.status ≠ AuctionStatus.Active
      · simp [h1] at h
      · by_cases h2 : a.owner ≠ who
        · simp [h1, h2] at h
        · simp [h1, h2] at h
          exact h.symm

theorem resume_auction_ok_eq (s : State) (o : Option Nat) (id : Nat) (s' : State)
    (h : resume_auction s o id = Except.ok s') :
    s' = deposit_event s
      (Event.AuctionUpdated id AuctionStatus.Paused AuctionStatus.Active) := by
  unfold resume_auction at h
  cases o with
  | none => simp [ensure_signed] at h
  | some who =>
    simp only [ensure_signed] at h
    rcases hA : s.auctions id with _ | a <;> rw [hA] at h
    · simp at h
    · by_cases h1 : a.status ≠ AuctionStatus.Paused
      · simp [h1] at h
      · by_cases h2 : a.owner ≠ who
        · simp [h1, h2] at h
        · simp [h1, h2] at h
          exact h.symm

theorem stop_auction_ok_eq (s : State) (o : Option Nat) (id : Nat) (s' : State)
    (h : stop_auction s o id = Except.ok s') :
    ∃ a, s.auctions id = some a ∧
      s' = deposit_event s
        (Event.AuctionUpdated a.id a.status AuctionStatus.Stopped) := by
  unfold stop_auction do_stop_auction at h
  cases o with
  | none => simp [ensure_signed] at h
  | some who =>
    simp only [ensure_signed] at h
    rcases hA : s.auctions id with _ | a <;> rw [hA] at h
    · simp at h
    · refine ⟨a, rfl, ?_⟩
      by_cases h1 : a.status = AuctionStatus.Stopped
      · simp [h1] at h
      · by_cases h2 : a.owner ≠ who
        · simp [h1, h2] at h
        · simp [h1, h2, do_settle_auction] at h
          exact h.symm

/-- The record `do_create_auction` builds (the local `new_auction` of the
source), as a function of its parameters. -/
def new_auction (auction_id : Nat) (owner : Nat) (begin_price : Nat)
    (minimum_step : Nat) (upper_bound_price : Option Nat) : Auction :=
  { id := auction_id
    item := 0
    owner := owner
    begin_price := begin_price
    minimum_step := minimum_step
    status := AuctionStatus.PendingStart
    upper_bound_price := upper_bound_price
    start_at := none
    stop_at := none
    wait_period := none
    latest_participate := none }

theorem create_auction_ok_eq (max_value : Nat) (s : State) (o : Option Nat)
    (bp ms : Nat) (ub : Option Nat) (s' : State)
    (h : create_auction max_value s o bp ms ub = Except.ok s') :
    s.next_auction_id ≠ max_value ∧ ∃ sender, o = some sender ∧
      s' = insert_auction sender s s.next_auction_id
        (new_auction s.next_auction_id sender bp ms ub) := by
  unfold create_auction do_create_auction get_next_auction_id at h
  cases o with
  | none => simp [ensure_signed] at h
  | some who =>
    simp only [ensure_signed] at h
    by_cases hm : s.next_auction_id = max_value
    · simp [hm] at h
    · simp only [hm, if_false] at h
      refine ⟨hm, who, rfl, ?_⟩
      exact (Except.ok.inj h).symm

theorem start_auction_ok_eq (s : State) (o : Option Nat) (id sig : Nat)
    (s' : State) (h : start_auction s o id sig = Except.ok s') : s' = s :=
  (Except.ok.inj h).symm

theorem participate_auction_ok_eq (s : State) (o : Option Nat) (id price : Nat)
    (s' : State) (h : participate_auction s o id price = Except.ok s') :
    s' = s :=
  (Except.ok.inj h).symm

/-- Every id at or above `NextAuctionId` is unallocated. -/
def IdsBounded (s : State) : Prop :=
  ∀ id, s.next_auction_id ≤ id → s.auctions id = none

theorem initState_bounded : IdsBounded initState := fun _ _ => rfl

theorem step_items_eq (max_value : Nat) (s s' : State)
    (hs : Step max_value s s') : s'.auction_items = s.auction_items := by
  cases hs with
  | create o bp ms ub h =>
    obtain ⟨-, sender, -, hseq⟩ := create_auction_ok_eq _ _ _ _ _ _ _ h
    subst hseq; rfl
  | setup o id st sp wp h =>
    rw [setup_moments_ok_eq _ _ _ _ _ _ _ h]
  | pause o id h =>
    rw [pause_auction_ok_eq _ _ _ _ h]; rfl
  | resume o id h =>
    rw [resume_auction_ok_eq _ _ _ _ h]; rfl
  | start o id sig h =>
    rw [start_auction_ok_eq _ _ _ _ _ h]
  | stop o id h =>
    obtain ⟨a, -, hseq⟩ := stop_auction_ok_eq _ _ _ _ h
    subst hseq; rfl
  | bid o id price h =>
    rw [participate_auction_ok_eq _ _ _ _ _ h]

theorem step_preserves_bounded (max_value : Nat) (s s' : State)
    (hb : IdsBounded s) (hs : Step max_value s s') : IdsBounded s' := by
  cases hs with
  | create o bp ms ub h =>
    obtain ⟨-, sender, -, hseq⟩ := create_auction_ok_eq _ _ _ _ _ _ _ h
    subst hseq
    intro id hle
    have h1 : s.next_auction_id + 1 ≤ id := hle
    have hne : ¬ id = s.next_auction_id := by omega
    show (if id = s.next_auction_id then _ else s.auctions id) = none
    rw [if_neg hne]
    exact hb id (by omega)
  | setup o id st sp wp h =>
    rw [setup_moments_ok_eq _ _ _ _ _ _ _ h]; exact hb
  | pause o id h =>
    rw [pause_auction_ok_eq _ _ _ _ h]; exact hb
  | resume o id h =>
    rw [resume_auction_ok_eq _ _ _ _ h]; exact hb
  | start o id sig h =>
    rw [start_auction_ok_eq _ _ _ _ _ h]; exact hb
  | stop o id h =>
    obtain ⟨a, -, hseq⟩ := stop_auction_ok_eq _ _ _ _ h
    subst hseq; exact hb
  | bid o id price h =>
    rw [participate_auction_ok_eq _ _ _ _ _ h]; exact hb

theorem reachable_bounded (max_value : Nat) (s : State)
    (h : Reachable max_value s) : IdsBounded s := by
  induction h with
  | init => exact initState_bounded
  | step s s' hr hs ih => exact step_preserves_bounded max_value s s' ih hs

/-- No dispatchable ever modifies a record already stored in `Auctions`:
`create_auction` writes only at the fresh id, and no other dispatchable
writes to the map at all. -/
theorem step_preserves_records (max_value : Nat) (s s' : State)
    (hb : IdsBounded s) (hs : Step max_value s s') (id : Nat) (a : Auction)
    (ha : s.auctions id = some a) : s'.auctions id = some a := by
  cases hs with
  | create o bp ms ub h =>
    obtain ⟨-, sender, -, hseq⟩ := create_auction_ok_eq _ _ _ _ _ _ _ h
    subst hseq
    have hne : ¬ id = s.next_auction_id := by
      intro he
      have : s.auctions id = none := hb id (le_of_eq he.symm)
      rw [this] at ha
      exact Option.noConfusion ha
    show (if id = s.next_auction_id then _ else s.auctions id) = some a
    rw [if_neg hne]
    exact ha
  | setup o id2 st sp wp h =>
    rw [setup_moments_ok_eq _ _ _ _ _ _ _ h]; exact ha
  | pause o id2 h =>
    rw [pause_auction_ok_eq _ _ _ _ h]; exact ha
  | resume o id2 h =>
    rw [resume_auction_ok_eq _ _ _ _ h]; exact ha
  | start o id2 sig h =>
    rw [start_auction_ok_eq _ _ _ _ _ h]; exact ha
  | stop o id2 h =>
    obtain ⟨a2, -, hseq⟩ := stop_auction_ok_eq _ _ _ _ h
    subst hseq; exact ha
  | bid o id2 price h =>
    rw [participate_auction_ok_eq _ _ _ _ _ h]; exact ha

theorem reachable_items_empty (max_value : Nat) (s : State)
    (h : Reachable max_value s) : ∀ item, s.auction_items item = none := by
  induction h with
  | init => exact fun _ => rfl
  | step s s' hr hs ih =>
    intro item
    rw [step_items_eq max_value s s' hs]
    exact ih item

/-! ### Concrete sample data for witnesses and counterexamples -/

/-- An `Active` auction owned by account 1, `begin_price = 100`,
`minimum_step = 10`, no ceiling. -/
def auctionA : Auction :=
  { id := 0
    item := 0
    owner := 1
    start_at := none
    stop_at := none
    wait_period := none
    begin_price := 100
    upper_bound_price := none
    minimum_step := 10
    latest_participate := none
    status := AuctionStatus.Active }

/-- The same auction while still `PendingStart`. -/
def auctionP : Auction :=
  { auctionA with status := AuctionStatus.PendingStart }

/-- The same auction while `Paused`. -/
def auctionPd : Auction :=
  { auctionA with status := AuctionStatus.Paused }

/-- The same auction once `Stopped`. -/
def auctionS : Auction :=
  { auctionA with status := AuctionStatus.Stopped }

/-- A state holding exactly the auction `a` under id 0. -/
def stateWith (a : Auction) : State :=
  { initState with
    next_auction_id := 1
    auctions := fun i => if i = 0 then some a else none }

/-- The state created by one `create_auction` call from genesis
(`owner = 1`, `begin_price = 100`, `minimum_step = 10`, no ceiling). -/
def state1 : State :=
  insert_auction 1 initState 0 (new_auction 0 1 100 10 none)

/-! ### Claims -/

/-- Claim C1.  The specification requires a bid of 50 against an `Active`
auction with `begin_price = 100`, `minimum_step = 10` and no ceiling to fail
with `PriceTooLow`.  The source of `participate_auction` is an empty body
returning `Ok(())`: it accepts the bid and leaves the whole state unchanged,
so the minimum-price guard is not implemented. -/
theorem participate_auction_accepts_low_bid :
    auctionA.status = AuctionStatus.Active ∧
    auctionA.begin_price = 100 ∧
    auctionA.minimum_step = 10 ∧
    auctionA.upper_bound_price = none ∧
    (50 : Nat) < auctionA.begin_price ∧
    participate_auction (stateWith auctionA) (some 7) 0 50 =
      Except.ok (stateWith auctionA) :=
  ⟨rfl, rfl, rfl, rfl, by decide, rfl⟩

/-- Claim C2.  `create_auction` succeeds whenever `NextAuctionId` is below
`max_value`: the caller becomes `owner`, the record is stored under the
allocated id with status `PendingStart` and `start_at`, `stop_at`,
`wait_period`, `latest_participate` all `none`, and `NextAuctionId` is
bumped.  When `NextAuctionId` has reached `max_value` the call fails with
the id-exhaustion error ("Auction count overflow" in the source). -/
theorem create_auction_spec (max_value : Nat) (s : State) (sender bp ms : Nat)
    (ub : Option Nat) :
    (s.next_auction_id < max_value →
      create_auction max_value s (some sender) bp ms ub =
        Except.ok (insert_auction sender s s.next_auction_id
          (new_auction s.next_auction_id sender bp ms ub)) ∧
      (insert_auction sender s s.next_auction_id
          (new_auction s.next_auction_id sender bp ms ub)).auctions
          s.next_auction_id =
        some
          { id := s.next_auction_id
            item := 0
            owner := sender
            start_at := none
            stop_at := none
            wait_period := none
            begin_price := bp
            upper_bound_price := ub
            minimum_step := ms
            latest_participate := none
            status := AuctionStatus.PendingStart } ∧
      (insert_auction sender s s.next_auction_id
          (new_auction s.next_auction_id sender bp ms ub)).next_auction_id =
        s.next_auction_id + 1) ∧
    (s.next_auction_id = max_value →
      create_auction max_value s (some sender) bp ms ub =
        Except.error "Auction count overflow") := by
  constructor
  · intro h
    have hne : ¬ s.next_auction_id = max_value := Nat.ne_of_lt h
    refine ⟨?_, ?_, rfl⟩
    · simp only [create_auction, do_create_auction, get_next_auction_id,
        ensure_signed, hne, if_false]
      rfl
    · show (if s.next_auction_id = s.next_auction_id then _ else _) = _
      rw [if_pos rfl]
      rfl
  · intro h
    simp only [create_auction, do_create_auction, get_next_auction_id,
      ensure_signed, h, if_true, if_pos]

/-- Witness for C2: both halves at concrete inputs. -/
theorem create_auction_spec_witness :
    create_auction 10 initState (some 1) 100 10 none =
      Except.ok (insert_auction 1 initState 0 (new_auction 0 1 100 10 none)) ∧
    create_auction 0 initState (some 1) 100 10 none =
      Except.error "Auction count overflow" :=
  ⟨((create_auction_spec 10 initState 1 100 10 none).1 (by decide)).1,
   (create_auction_spec 0 initState 1 100 10 none).2 rfl⟩

/-- Claim C3.  `stop_auction` fails with the invalid-state error when the
stored status is already `Stopped`, and with the unauthorized error when the
caller is not the owner (checked after the status guard, as in the source).
`do_stop_auction` invokes `do_settle_auction` before emitting the transition
to `Stopped` whenever the status was not `PendingStart`; `do_stop_auction_with`
abstracts the settlement routine and shows that a failing settlement
propagates through the `?` operator, aborting the stop with no state
returned (so the stored status is unchanged). -/
theorem stop_auction_spec :
    (∀ (s : State) (sender id : Nat) (a : Auction),
      s.auctions id = some a → a.status = AuctionStatus.Stopped →
      stop_auction s (some sender) id =
        Except.error "Auction can NOT be stopped now.") ∧
    (∀ (s : State) (sender id : Nat) (a : Auction),
      s.auctions id = some a → a.status ≠ AuctionStatus.Stopped →
      a.owner ≠ sender →
      stop_auction s (some sender) id =
        Except.error "Only owner can call this fn.") ∧
    (∀ (s : State) (a : Auction),
      do_stop_auction s a = do_stop_auction_with do_settle_auction s a) ∧
    (∀ (settle : State → Nat → Except String State) (s : State) (a : Auction)
      (e : String), a.status ≠ AuctionStatus.PendingStart →
      settle s a.id = Except.error e →
      do_stop_auction_with settle s a = Except.error e) := by
  refine ⟨?_, ?_, ?_, ?_⟩
  · intro s sender id a hA hstat
    simp [stop_auction, ensure_signed, hA, hstat]
  · intro s sender id a hA hstat howner
    simp [stop_auction, ensure_signed, hA, hstat, howner]
  · intro s a
    rfl
  · intro settle s a e hstat hset
    simp [do_stop_auction_with, hstat, hset]

/-- Witness for C3: each guarded part at a concrete input. -/
theorem stop_auction_spec_witness :
    stop_auction (stateWith auctionS) (some 1) 0 =
      Except.error "Auction can NOT be stopped now." ∧
    stop_auction (stateWith auctionA) (some 2) 0 =
      Except.error "Only owner can call this fn." ∧
    do_stop_auction_with (fun _ _ => Except.error "settlement failed")
        (stateWith auctionA) auctionA =
      Except.error "settlement failed" :=
  ⟨stop_auction_spec.1 (stateWith auctionS) 1 0 auctionS rfl rfl,
   stop_auction_spec.2.1 (stateWith auctionA) 2 0 auctionA rfl (by decide)
     (by decide),
   stop_auction_spec.2.2.2 (fun _ _ => Except.error "settlement failed")
     (stateWith auctionA) auctionA "settlement failed" (by decide) rfl⟩

/-- Claim C4.  Along any successful dispatchable call from a reachable state,
a record stored both before and after the call only moves along the allowed
status edges.  In this source no dispatchable ever writes a status change
back to the `Auctions` map, so the stored status is in fact unchanged, which
satisfies the claimed restriction vacuously. -/
theorem stored_status_transitions (max_value : Nat) (s s' : State)
    (id : Nat) (a a' : Auction) (hr : Reachable max_value s)
    (hs : Step max_value s s') (ha : s.auctions id = some a)
    (ha' : s'.auctions id = some a') :
    a'.status = a.status ∨ StatusEdge a.status a'.status := by
  left
  have hb := reachable_bounded max_value s hr
  have h2 := step_preserves_records max_value s s' hb hs id a ha
  rw [h2] at ha'
  rw [Option.some.inj ha']

/-- Witness for C4: a reachable state holding a record, and a step from it. -/
theorem stored_status_transitions_witness :
    (new_auction 0 1 100 10 none).status =
        (new_auction 0 1 100 10 none).status ∨
      StatusEdge (new_auction 0 1 100 10 none).status
        (new_auction 0 1 100 10 none).status :=
  stored_status_transitions 10 state1 state1 0
    (new_auction 0 1 100 10 none) (new_auction 0 1 100 10 none)
    (Reachable.step initState state1 Reachable.init
      (Step.create initState state1 (some 1) 100 10 none rfl))
    (Step.setup state1 state1 (some 1) 0 none none none rfl)
    rfl rfl

/-- Claim C5.  The owner pausing an `Active` auction gets `Ok` and the
`AuctionUpdated(Active, Paused)` event, but the stored record still has
status `Active`: the source changes only its local copy and never writes it
back, contradicting its own emitted event. -/
theorem pause_auction_does_not_persist_status :
    pause_auction (stateWith auctionA) (some 1) 0 =
      Except.ok (deposit_event (stateWith auctionA)
        (Event.AuctionUpdated 0 AuctionStatus.Active AuctionStatus.Paused)) ∧
    (deposit_event (stateWith auctionA)
        (Event.AuctionUpdated 0 AuctionStatus.Active
          AuctionStatus.Paused)).auctions 0 = some auctionA ∧
    auctionA.status = AuctionStatus.Active :=
  ⟨rfl, rfl, rfl⟩

/-- Claim C6.  The owner configuring timing on a `PendingStart` auction gets
`Ok`, but the stored record keeps `start_at = stop_at = wait_period = none`:
the source comment says "set moments into storage", yet the updated local
copy is never written back. -/
theorem setup_moments_does_not_persist_moments :
    setup_moments (stateWith auctionP) (some 1) 0 (some 5) (some 9) (some 3) =
      Except.ok (stateWith auctionP) ∧
    (stateWith auctionP).auctions 0 = some auctionP ∧
    auctionP.start_at = none ∧
    auctionP.stop_at = none ∧
    auctionP.wait_period = none :=
  ⟨rfl, rfl, rfl, rfl, rfl⟩

/-- Counterexample for C7: a `create_auction` call with `minimum_step = 0`
is not rejected; it succeeds and stores the record. -/
theorem create_auction_accepts_zero_minimum_step :
    create_auction 10 initState (some 1) 100 0 none =
      Except.ok (insert_auction 1 initState 0 (new_auction 0 1 100 0 none)) ∧
    (insert_auction 1 initState 0 (new_auction 0 1 100 0 none)).auctions 0 =
      some (new_auction 0 1 100 0 none) ∧
    (new_auction 0 1 100 0 none).minimum_step = 0 :=
  ⟨rfl, rfl, rfl⟩

/-- Claim C7 as amended.  `do_create_auction` performs no parameter
validation: whenever the identifier space is not full, a call with
`minimum_step = 0` succeeds and stores a record whose `minimum_step` is 0. -/
theorem create_auction_no_minimum_step_validation (max_value : Nat)
    (s : State) (sender bp : Nat) (ub : Option Nat)
    (h : s.next_auction_id < max_value) :
    create_auction max_value s (some sender) bp 0 ub =
      Except.ok (insert_auction sender s s.next_auction_id
        (new_auction s.next_auction_id sender bp 0 ub)) := by
  have hne : ¬ s.next_auction_id = max_value := Nat.ne_of_lt h
  simp only [create_auction, do_create_auction, get_next_auction_id,
    ensure_signed, hne, if_false]
  rfl

/-- Witness for the amended C7. -/
theorem create_auction_no_minimum_step_validation_witness :
    create_auction 10 initState (some 1) 100 0 none =
      Except.ok (insert_auction 1 initState 0 (new_auction 0 1 100 0 none)) :=
  create_auction_no_minimum_step_validation 10 initState 1 100 none (by decide)

/-- Claim C8.  In every reachable state the `AuctionItems` index maps every
item to nothing at all (no code of the module ever writes to it), so in
particular no item is ever bound to two distinct non-stopped auctions. -/
theorem auction_items_at_most_one (max_value : Nat) (s : State)
    (h : Reachable max_value s) (item : Nat) :
    s.auction_items item = none ∧
    ¬ ∃ id1 id2 : Nat, id1 ≠ id2 ∧ s.auction_items item = some id1 ∧
      s.auction_items item = some id2 := by
  have he := reachable_items_empty max_value s h item
  refine ⟨he, ?_⟩
  rintro ⟨id1, id2, -, h1, -⟩
  rw [he] at h1
  exact Option.noConfusion h1

/-- Witness for C8 at the genesis state. -/
theorem auction_items_at_most_one_witness :
    initState.auction_items 0 = none ∧
    ¬ ∃ id1 id2 : Nat, id1 ≠ id2 ∧ initState.auction_items 0 = some id1 ∧
      initState.auction_items 0 = some id2 :=
  auction_items_at_most_one 10 initState Reachable.init 0

/-- Claim C9.  Successful runs of `setup_moments`, `pause_auction`,
`resume_auction` and `stop_auction` leave the stored `Auctions` map exactly
as it was (each mutates only its local copy); failing runs return an error
and, in this embedding as in the runtime, commit no state at all. -/
theorem lifecycle_ops_leave_auctions_unchanged :
    (∀ (s : State) (o : Option Nat) (id : Nat) (st sp wp : Option Nat)
      (s' : State), setup_moments s o id st sp wp = Except.ok s' →
      s'.auctions = s.auctions) ∧
    (∀ (s : State) (o : Option Nat) (id : Nat) (s' : State),
      pause_auction s o id = Except.ok s' → s'.auctions = s.auctions) ∧
    (∀ (s : State) (o : Option Nat) (id : Nat) (s' : State),
      resume_auction s o id = Except.ok s' → s'.auctions = s.auctions) ∧
    (∀ (s : State) (o : Option Nat) (id : Nat) (s' : State),
      stop_auction s o id = Except.ok s' → s'.auctions = s.auctions) := by
  refine ⟨?_, ?_, ?_, ?_⟩
  · intro s o id st sp wp s' h
    rw [setup_moments_ok_eq _ _ _ _ _ _ _ h]
  · intro s o id s' h
    rw [pause_auction_ok_eq _ _ _ _ h]
    rfl
  · intro s o id s' h
    rw [resume_auction_ok_eq _ _ _ _ h]
    rfl
  · intro s o id s' h
    obtain ⟨a, -, hseq⟩ := stop_auction_ok_eq _ _ _ _ h
    subst hseq
    rfl

/-- Witness for C9: one successful run of each of the four operations. -/
theorem lifecycle_ops_leave_auctions_unchanged_witness :
    (stateWith auctionP).auctions = (stateWith auctionP).auctions ∧
    (deposit_event (stateWith auctionA)
        (Event.AuctionUpdated 0 AuctionStatus.Active
          AuctionStatus.Paused)).auctions = (stateWith auctionA).auctions ∧
    (deposit_event (stateWith auctionPd)
        (Event.AuctionUpdated 0 AuctionStatus.Paused
          AuctionStatus.Active)).auctions = (stateWith auctionPd).auctions ∧
    (deposit_event (stateWith auctionA)
        (Event.AuctionUpdated auctionA.id auctionA.status
          AuctionStatus.Stopped)).auctions = (stateWith auctionA).auctions :=
  ⟨lifecycle_ops_leave_auctions_unchanged.1 (stateWith auctionP) (some 1) 0
      none none none (stateWith auctionP) rfl,
   lifecycle_ops_leave_auctions_unchanged.2.1 (stateWith auctionA) (some 1) 0
      (deposit_event (stateWith auctionA)
        (Event.AuctionUpdated 0 AuctionStatus.Active AuctionStatus.Paused))
      rfl,
   lifecycle_ops_leave_auctions_unchanged.2.2.1 (stateWith auctionPd) (some 1)
      0 (deposit_event (stateWith auctionPd)
        (Event.AuctionUpdated 0 AuctionStatus.Paused AuctionStatus.Active))
      rfl,
   lifecycle_ops_leave_auctions_unchanged.2.2.2 (stateWith auctionA) (some 1)
      0 (deposit_event (stateWith auctionA)
        (Event.AuctionUpdated auctionA.id auctionA.status
          AuctionStatus.Stopped)) rfl⟩

/-- Claim C10.  `participate_auction` and `start_auction` have empty bodies:
for every origin (signed or not), auction id, price and signature they return
`Ok` with the state exactly as given, so no auction, bid-ledger or index
entry is read into a decision or modified and no event is emitted. -/
theorem participate_and_start_auction_noop (s : State) (o : Option Nat)
    (id price sig : Nat) :
    participate_auction s o id price = Except.ok s ∧
    start_auction s o id sig = Except.ok s :=
  ⟨rfl, rfl⟩

end AuctionModule
